import Mathlib

/-!
Verification development for the wordle-league repository.

Part 1 embeds the weekly winner computation (`computeWeeklyWinners`).
Its source is not part of this snapshot (the README describes it as living
in the external `update_season_winners.py` pipeline), so the definitions in
Part 1 are modelled from the specification text.

Part 2 embeds the DOM scripts that are present in the snapshot
(`src/tabs.js`, `src/script.js`, the inline script of `src/index.html`):
tab click handlers, the `activateTab` helper, the failed-attempts cell
styling pass and the sessionStorage-driven stats-tab activation.
-/

/-- Modelled from the spec: a `ScoreRecord` `(player, league, date, score)`.
The winner-computation source is absent from the snapshot; dates are modelled
as days since an epoch (only their ordering matters), scores as integers. -/
structure ScoreRecord where
  player : String
  league : String
  date : Nat
  score : Int
deriving DecidableEq

/-- Modelled from the spec: a weekly window as an inclusive day range
(`start` is the Monday, `endDate` the Sunday; `end` is a reserved word). -/
structure WeeklyWindow where
  start : Nat
  endDate : Nat
deriving DecidableEq

/-- Modelled from the spec: a computed `WeeklyStanding`. -/
structure WeeklyStanding where
  player : String
  league : String
  window : WeeklyWindow
  total : Int
  gameCount : Nat
  isWinner : Bool
deriving DecidableEq

/-- Modelled from the spec: the identity of a record for duplicate detection,
`(player, date)` within a league. -/
def recKey (r : ScoreRecord) : String × String × Nat :=
  (r.player, r.league, r.date)

/-- Modelled from the spec: fail-fast validation. Returns the first offending
record: one with a negative score, or one whose `(player, league, date)` key
occurs again later in the list. -/
def findInvalid : List ScoreRecord → Option ScoreRecord
  | [] => none
  | r :: rs =>
      if r.score < 0 then some r
      else if rs.any (fun s => decide (recKey s = recKey r)) then some r
      else findInvalid rs

/-- Modelled from the spec, algorithm step 1: keep the records of the given
league whose date falls inside the inclusive window. -/
def filteredRecords (records : List ScoreRecord) (league : String)
    (window : WeeklyWindow) : List ScoreRecord :=
  records.filter (fun r =>
    r.league == league && decide (window.start ≤ r.date) && decide (r.date ≤ window.endDate))

/-- Modelled from the spec, algorithm step 2: the scores of one player among
the filtered records. -/
def playerScores (filtered : List ScoreRecord) (p : String) : List Int :=
  (filtered.filter (fun r => r.player == p)).map (fun r => r.score)

/-- Modelled from the spec, algorithm step 3: sort ascending and sum the
lowest 5 scores (all of them when fewer than 5 exist). -/
def bestFiveTotal (scores : List Int) : Int :=
  ((List.insertionSort (· ≤ ·) scores).take 5).sum

/-- Modelled from the spec: the players considered, each once. -/
def playersOf (filtered : List ScoreRecord) : List String :=
  (filtered.map (fun r => r.player)).dedup

/-- Minimum of a list of integers, `none` on the empty list. -/
def listMin : List Int → Option Int
  | [] => none
  | x :: xs =>
      match listMin xs with
      | none => some x
      | some m => some (min x m)

/-- Modelled from the spec, algorithm step 4: the totals of the eligible
players (those with at least 5 records in the window). -/
def eligibleTotals (filtered : List ScoreRecord) : List Int :=
  ((playersOf filtered).filter (fun p => decide (5 ≤ (playerScores filtered p).length))).map
    (fun p => bestFiveTotal (playerScores filtered p))

/-- Modelled from the spec, algorithm step 4: `minTotal`, the minimum total
among eligible players, when any player is eligible. -/
def minEligibleTotal (filtered : List ScoreRecord) : Option Int :=
  listMin (eligibleTotals filtered)

/-- Modelled from the spec: the standing of one player. `isWinner` holds
exactly for eligible players whose total is the eligible minimum. -/
def rawStanding (league : String) (window : WeeklyWindow) (filtered : List ScoreRecord)
    (minTot : Option Int) (p : String) : WeeklyStanding :=
  { player := p
    league := league
    window := window
    total := bestFiveTotal (playerScores filtered p)
    gameCount := (playerScores filtered p).length
    isWinner := decide (5 ≤ (playerScores filtered p).length ∧
      minTot = some (bestFiveTotal (playerScores filtered p))) }

/-- Modelled from the spec, algorithm step 5: output order, ascending total
with ties broken by player name. -/
def standingLE (a b : WeeklyStanding) : Prop :=
  a.total < b.total ∨ (a.total = b.total ∧ a.player ≤ b.player)

instance : DecidableRel standingLE := fun a b =>
  inferInstanceAs (Decidable (a.total < b.total ∨ (a.total = b.total ∧ a.player ≤ b.player)))

instance : IsTotal WeeklyStanding standingLE :=
  ⟨fun a b => by
    unfold standingLE
    rcases lt_trichotomy a.total b.total with h | h | h
    · exact Or.inl (Or.inl h)
    · rcases le_total a.player b.player with hp | hp
      · exact Or.inl (Or.inr ⟨h, hp⟩)
      · exact Or.inr (Or.inr ⟨h.symm, hp⟩)
    · exact Or.inr (Or.inl h)⟩

instance : IsTrans WeeklyStanding standingLE :=
  ⟨fun a b c hab hbc => by
    unfold standingLE at hab hbc ⊢
    rcases hab with h1 | ⟨e1, p1⟩
    · rcases hbc with h2 | ⟨e2, _⟩
      · exact Or.inl (h1.trans h2)
      · exact Or.inl (e2 ▸ h1)
    · rcases hbc with h2 | ⟨e2, p2⟩
      · exact Or.inl (e1 ▸ h2)
      · exact Or.inr ⟨e1.trans e2, p1.trans p2⟩⟩

/-- Modelled from the spec: `computeWeeklyWinners`. Validates the input,
then filters to the league/window, builds one standing per player and
returns them sorted by ascending total with ties broken by player name.
The source of this computation (`update_season_winners.py`) is not part of
the repository snapshot. -/
def computeWeeklyWinners (records : List ScoreRecord) (league : String)
    (window : WeeklyWindow) : Except ScoreRecord (List WeeklyStanding) :=
  match findInvalid records with
  | some r => Except.error r
  | none =>
      let filtered := filteredRecords records league window
      Except.ok (List.insertionSort standingLE
        ((playersOf filtered).map (rawStanding league window filtered (minEligibleTotal filtered))))

/-! ## Part 2: the DOM scripts present in the snapshot -/

/-- A tab button (`.tab-button`): its `data-tab` attribute and whether it
carries the `active` class. -/
structure TabButton where
  dataTab : String
  active : Bool
deriving DecidableEq

/-- A tab content pane (`.tab-content`): its `id` and whether it carries the
`active` class. -/
structure TabContent where
  id : String
  active : Bool
deriving DecidableEq

/-- The tab-related DOM state: the node lists returned by
`querySelectorAll('.tab-button')` and `querySelectorAll('.tab-content')`,
in document order. -/
structure TabState where
  buttons : List TabButton
  contents : List TabContent
deriving DecidableEq

/-- `button.classList.add('active')` on the clicked button, identified by its
index in the node list; the other buttons are untouched. -/
def setButtonActiveAt : List TabButton → Nat → List TabButton
  | [], _ => []
  | b :: bs, 0 => { b with active := true } :: bs
  | b :: bs, n + 1 => b :: setButtonActiveAt bs n

/-- `document.getElementById(tabId).classList.add('active')` over the content
list: adds `active` to the first content whose `id` matches, `none` when no
element matches (the script then throws a `TypeError` on the `null`). -/
def activateFirstId : List TabContent → String → Option (List TabContent)
  | [], _ => none
  | c :: cs, tabId =>
      if c.id == tabId then some ({ c with active := true } :: cs)
      else (activateFirstId cs tabId).map (fun out => c :: out)

/-- `document.querySelector('.tab-button[data-tab=tabId]').classList.add('active')`
over the button list: adds `active` to the first button whose `data-tab`
matches, `none` when no button matches. -/
def activateFirstBtn : List TabButton → String → Option (List TabButton)
  | [], _ => none
  | b :: bs, tabId =>
      if b.dataTab == tabId then some ({ b with active := true } :: bs)
      else (activateFirstBtn bs tabId).map (fun out => b :: out)

/-- The click handler of `src/tabs.js` lines 7-24, `src/script.js` lines 7-19
and the inline `openTab` of `src/index.html`: the button at index `i` is
clicked; `active` is removed from every button and content, added to the
clicked button, and added to the element whose id is the button's `data-tab`.
`none` models a click with no button at `i`, or the `TypeError` thrown when
`getElementById` returns `null`. -/
def clickTab (s : TabState) (i : Nat) : Option TabState :=
  match s.buttons[i]? with
  | none => none
  | some b =>
      let bs := s.buttons.map (fun x => { x with active := false })
      let cs := s.contents.map (fun c => { c with active := false })
      match activateFirstId cs b.dataTab with
      | none => none
      | some cs' => some { buttons := setButtonActiveAt bs i, contents := cs' }

/-- `activateTab` of `src/script.js` lines 38-52: removes `active` from every
button and content, then adds it to the first button whose `data-tab` is
`tabId` and to the first content whose id is `tabId`, each step skipped with
a null check when no such element exists. -/
def activateTabFn (s : TabState) (tabId : String) : TabState :=
  let bs := s.buttons.map (fun x => { x with active := false })
  let cs := s.contents.map (fun c => { c with active := false })
  { buttons :=
      match activateFirstBtn bs tabId with
      | none => bs
      | some out => out
    contents :=
      match activateFirstId cs tabId with
      | none => cs
      | some out => out }

/-- The click handler of `src/script.js` lines 61-66: reads the clicked
button's `data-tab` and calls `activateTab` with it. `none` models a click
with no button at index `i`. -/
def clickTab2 (s : TabState) (i : Nat) : Option TabState :=
  (s.buttons[i]?).map (fun b => activateTabFn s b.dataTab)

/-- The `sessionStorage` fragment of `src/script.js` lines 55-58: `stored` is
the value under the key `activateStatsTab` (`none` when absent). When it is
the string `true`, the stats tab is activated and the key removed. -/
def statsTabOnLoad (s : TabState) (stored : Option String) : TabState × Option String :=
  if stored = some "true" then (activateTabFn s "stats", none) else (s, stored)

/-- A `.failed-attempts` table cell: its text and the inline style properties
the script writes. -/
structure Cell where
  textContent : String
  backgroundColor : String
  color : String
  fontWeight : String
deriving DecidableEq

/-- The styling of one `.failed-attempts` cell (`src/script.js` lines 22-29
and 69-76): when the text is exactly `0`, the cell is blanked. -/
def styleFailedCell (c : Cell) : Cell :=
  if c.textContent = "0" then
    { c with backgroundColor := "transparent", color := "#d7dadc", fontWeight := "normal" }
  else c

/-- The `failedCells.forEach` pass over every `.failed-attempts` cell. -/
def styleFailedCells (cells : List Cell) : List Cell :=
  cells.map styleFailedCell

/-! ## Helper lemmas -/

theorem listMin_eq_none {l : List Int} (h : listMin l = none) : l = [] := by
  cases l with
  | nil => rfl
  | cons x xs =>
      exfalso
      unfold listMin at h
      cases hxs : listMin xs <;> simp [hxs] at h

theorem listMin_le {l : List Int} {m : Int} (h : listMin l = some m) :
    ∀ x ∈ l, m ≤ x := by
  induction l generalizing m with
  | nil => simp
  | cons x xs ih =>
      intro y hy
      unfold listMin at h
      cases hxs : listMin xs with
      | none =>
          rw [hxs] at h
          simp only [Option.some.injEq] at h
          subst h
          rcases List.mem_cons.mp hy with hya | hyb
          · subst hya; exact le_refl _
          · rw [listMin_eq_none hxs] at hyb
            exact absurd hyb (List.not_mem_nil y)
      | some m' =>
          rw [hxs] at h
          simp only [Option.some.injEq] at h
          subst h
          rcases List.mem_cons.mp hy with hya | hyb
          · rw [hya]; exact min_le_left x m'
          · exact le_trans (min_le_right x m') (ih hxs y hyb)

theorem listMin_mem {l : List Int} {m : Int} (h : listMin l = some m) : m ∈ l := by
  induction l generalizing m with
  | nil => simp [listMin] at h
  | cons x xs ih =>
      unfold listMin at h
      cases hxs : listMin xs with
      | none =>
          rw [hxs] at h
          simp only [Option.some.injEq] at h
          subst h
          exact List.mem_cons_self x xs
      | some m' =>
          rw [hxs] at h
          simp only [Option.some.injEq] at h
          subst h
          rcases min_cases x m' with ⟨he, _⟩ | ⟨he, _⟩
          · exact List.mem_cons.mpr (Or.inl he)
          · rw [he]
            exact List.mem_cons_of_mem x (ih hxs)

theorem listMin_isSome {l : List Int} (h : l ≠ []) : ∃ m, listMin l = some m := by
  cases l with
  | nil => exact absurd rfl h
  | cons x xs =>
      unfold listMin
      cases hxs : listMin xs with
      | none => exact ⟨x, rfl⟩
      | some m' => exact ⟨min x m', rfl⟩

theorem findInvalid_none {records : List ScoreRecord} (h : findInvalid records = none) :
    (∀ r ∈ records, 0 ≤ r.score) ∧ (records.map recKey).Nodup := by
  induction records with
  | nil => exact ⟨by simp, List.nodup_nil⟩
  | cons r rs ih =>
      unfold findInvalid at h
      by_cases hneg : r.score < 0
      · simp [hneg] at h
      · by_cases hdup : rs.any (fun s => decide (recKey s = recKey r)) = true
        · simp [hneg, hdup] at h
        · simp only [hneg, if_false, hdup, if_false] at h
          obtain ⟨hpos, hnd⟩ := ih h
          refine ⟨?_, ?_⟩
          · intro x hx
            rcases List.mem_cons.mp hx with hxa | hxb
            · exact hxa ▸ le_of_not_lt hneg
            · exact hpos x hxb
          · rw [List.map_cons, List.nodup_cons]
            refine ⟨?_, hnd⟩
            intro hmem
            apply hdup
            rw [List.any_eq_true]
            obtain ⟨s, hs, hkey⟩ := List.mem_map.mp hmem
            exact ⟨s, hs, decide_eq_true hkey⟩

theorem findInvalid_some {records : List ScoreRecord} {bad : ScoreRecord}
    (h : findInvalid records = some bad) :
    bad ∈ records ∧
      (bad.score < 0 ∨
        2 ≤ (records.filter (fun s => decide (recKey s = recKey bad))).length) := by
  induction records with
  | nil => simp [findInvalid] at h
  | cons r rs ih =>
      unfold findInvalid at h
      by_cases hneg : r.score < 0
      · rw [if_pos hneg] at h
        simp only [Option.some.injEq] at h
        exact ⟨List.mem_cons.mpr (Or.inl h.symm), Or.inl (h ▸ hneg)⟩
      · rw [if_neg hneg] at h
        by_cases hdup : rs.any (fun s => decide (recKey s = recKey r)) = true
        · rw [if_pos hdup] at h
          simp only [Option.some.injEq] at h
          subst h
          refine ⟨List.mem_cons_self r rs, Or.inr ?_⟩
          obtain ⟨s, hs, hkey⟩ := List.any_eq_true.mp hdup
          have hsk : recKey s = recKey r := of_decide_eq_true hkey
          have hfil : s ∈ rs.filter (fun t => decide (recKey t = recKey r)) :=
            List.mem_filter.mpr ⟨hs, decide_eq_true hsk⟩
          have h1 : 1 ≤ (rs.filter (fun t => decide (recKey t = recKey r))).length :=
            List.length_pos.mpr (List.ne_nil_of_mem hfil)
          rw [List.filter_cons_of_pos (by simp)]
          simp only [List.length_cons]
          omega
        · rw [if_neg hdup] at h
          obtain ⟨hmem, hoff⟩ := ih h
          refine ⟨List.mem_cons.mpr (Or.inr hmem), ?_⟩
          rcases hoff with hng | hlen
          · exact Or.inl hng
          · exact Or.inr (le_trans hlen
              (((List.sublist_cons_self r rs).filter _).length_le))

theorem computeWeeklyWinners_ok {records : List ScoreRecord} {league : String}
    {window : WeeklyWindow} {out : List WeeklyStanding}
    (h : computeWeeklyWinners records league window = Except.ok out) :
    findInvalid records = none ∧
      out = List.insertionSort standingLE
        ((playersOf (filteredRecords records league window)).map
          (rawStanding league window (filteredRecords records league window)
            (minEligibleTotal (filteredRecords records league window)))) := by
  unfold computeWeeklyWinners at h
  cases hI : findInvalid records with
  | some r => rw [hI] at h; exact absurd h (by simp)
  | none =>
      rw [hI] at h
      simp only [Except.ok.injEq] at h
      exact ⟨rfl, h.symm⟩

theorem mem_computeWeeklyWinners {records : List ScoreRecord} {league : String}
    {window : WeeklyWindow} {out : List WeeklyStanding} {s : WeeklyStanding}
    (h : computeWeeklyWinners records league window = Except.ok out) (hs : s ∈ out) :
    ∃ p ∈ playersOf (filteredRecords records league window),
      s = rawStanding league window (filteredRecords records league window)
        (minEligibleTotal (filteredRecords records league window)) p := by
  obtain ⟨-, hout⟩ := computeWeeklyWinners_ok h
  rw [hout] at hs
  have hperm := List.perm_insertionSort standingLE
    ((playersOf (filteredRecords records league window)).map
      (rawStanding league window (filteredRecords records league window)
        (minEligibleTotal (filteredRecords records league window))))
  obtain ⟨p, hp, hps⟩ := List.mem_map.mp (hperm.mem_iff.mp hs)
  exact ⟨p, hp, hps.symm⟩

/-! ## Claims C1-C6: the weekly winner computation -/

/-- C1: in every successful result of `computeWeeklyWinners`, the `total` of a
standing whose player has at least 5 records in the league/window equals the
sum of exactly the 5 smallest scores among that player's records there: for
any ascending sort `l` of that player's filtered scores, `total` is the sum
of the first 5 elements of `l`, and exactly 5 elements are summed. -/
theorem c1_total_sums_five_smallest {records : List ScoreRecord} {league : String}
    {window : WeeklyWindow} {out : List WeeklyStanding} {s : WeeklyStanding}
    (h : computeWeeklyWinners records league window = Except.ok out)
    (hs : s ∈ out) (hge : 5 ≤ s.gameCount) {l : List Int}
    (hperm : List.Perm l (playerScores (filteredRecords records league window) s.player))
    (hsort : List.Sorted (· ≤ ·) l) :
    s.total = (l.take 5).sum ∧ (l.take 5).length = 5 := by
  obtain ⟨p, hp, hps⟩ := mem_computeWeeklyWinners h hs
  have hsp : s.player = p := by rw [hps]; rfl
  have hst : s.total =
      bestFiveTotal (playerScores (filteredRecords records league window) p) := by rw [hps]; rfl
  have hsg : s.gameCount =
      (playerScores (filteredRecords records league window) p).length := by rw [hps]; rfl
  rw [hsp] at hperm
  have hl : l = List.insertionSort (· ≤ ·)
      (playerScores (filteredRecords records league window) p) :=
    List.eq_of_perm_of_sorted
      (hperm.trans (List.perm_insertionSort (· ≤ ·) _).symm)
      hsort (List.sorted_insertionSort (· ≤ ·) _)
  constructor
  · rw [hst, hl]; rfl
  · rw [List.length_take, hperm.length_eq]
    rw [hsg] at hge
    omega

/-- C2: in every successful result of `computeWeeklyWinners`, a standing is
marked `isWinner` if and only if its player has at least 5 records in the
league/window and its total is minimal among the standings of all such
eligible players; ties are preserved and no ineligible player wins. -/
theorem c2_isWinner_iff_minimal_eligible {records : List ScoreRecord} {league : String}
    {window : WeeklyWindow} {out : List WeeklyStanding} {s : WeeklyStanding}
    (h : computeWeeklyWinners records league window = Except.ok out) (hs : s ∈ out) :
    s.isWinner = true ↔
      (5 ≤ s.gameCount ∧ ∀ t ∈ out, 5 ≤ t.gameCount → s.total ≤ t.total) := by
  obtain ⟨p, hp, hps⟩ := mem_computeWeeklyWinners h hs
  have hsw : s.isWinner = decide
      (5 ≤ (playerScores (filteredRecords records league window) p).length ∧
        minEligibleTotal (filteredRecords records league window) =
          some (bestFiveTotal (playerScores (filteredRecords records league window) p))) := by
    rw [hps]; rfl
  have hsg : s.gameCount =
      (playerScores (filteredRecords records league window) p).length := by rw [hps]; rfl
  have hst : s.total =
      bestFiveTotal (playerScores (filteredRecords records league window) p) := by rw [hps]; rfl
  constructor
  · intro hw
    rw [hsw] at hw
    obtain ⟨hlen, hmt⟩ := of_decide_eq_true hw
    refine ⟨by rw [hsg]; exact hlen, ?_⟩
    intro t ht htge
    obtain ⟨q, hq, hqt⟩ := mem_computeWeeklyWinners h ht
    have htg : t.gameCount =
        (playerScores (filteredRecords records league window) q).length := by rw [hqt]; rfl
    have htt : t.total =
        bestFiveTotal (playerScores (filteredRecords records league window) q) := by rw [hqt]; rfl
    rw [htg] at htge
    have hqmem : bestFiveTotal (playerScores (filteredRecords records league window) q) ∈
        eligibleTotals (filteredRecords records league window) :=
      List.mem_map.mpr ⟨q, List.mem_filter.mpr ⟨hq, decide_eq_true htge⟩, rfl⟩
    rw [hst, htt]
    exact listMin_le hmt _ hqmem
  · rintro ⟨hge, hmin⟩
    rw [hsw]
    apply decide_eq_true
    rw [hsg] at hge
    refine ⟨hge, ?_⟩
    have hpmem : bestFiveTotal (playerScores (filteredRecords records league window) p) ∈
        eligibleTotals (filteredRecords records league window) :=
      List.mem_map.mpr ⟨p, List.mem_filter.mpr ⟨hp, decide_eq_true hge⟩, rfl⟩
    obtain ⟨m, hm⟩ := listMin_isSome (List.ne_nil_of_mem hpmem)
    have hm1 : m ≤ bestFiveTotal (playerScores (filteredRecords records league window) p) :=
      listMin_le hm _ hpmem
    obtain ⟨q, hq', hqm⟩ := List.mem_map.mp (listMin_mem hm)
    obtain ⟨hqp, hqlen⟩ := List.mem_filter.mp hq'
    have hqlen' : 5 ≤ (playerScores (filteredRecords records league window) q).length :=
      of_decide_eq_true hqlen
    have hqin : rawStanding league window (filteredRecords records league window)
        (minEligibleTotal (filteredRecords records league window)) q ∈ out := by
      obtain ⟨-, hout⟩ := computeWeeklyWinners_ok h
      rw [hout]
      exact (List.perm_insertionSort standingLE _).mem_iff.mpr
        (List.mem_map.mpr ⟨q, hqp, rfl⟩)
    have h2 := hmin _ hqin hqlen'
    rw [hst] at h2
    have hm2 : bestFiveTotal (playerScores (filteredRecords records league window) p) ≤ m := by
      rw [← hqm]; exact h2
    show minEligibleTotal (filteredRecords records league window) = some _
    rw [show minEligibleTotal (filteredRecords records league window) =
      listMin (eligibleTotals (filteredRecords records league window)) from rfl, hm,
      le_antisymm hm1 hm2]

/-- C3: every successful result of `computeWeeklyWinners` carries exactly one
standing per player considered (the distinct players among the filtered
records), and is sorted ascending by total with ties broken by player name
(the order `standingLE`). -/
theorem c3_sorted_one_standing_per_player {records : List ScoreRecord} {league : String}
    {window : WeeklyWindow} {out : List WeeklyStanding}
    (h : computeWeeklyWinners records league window = Except.ok out) :
    List.Sorted standingLE out ∧
      (out.map (fun s => s.player)).Nodup ∧
      List.Perm (out.map (fun s => s.player))
        (playersOf (filteredRecords records league window)) := by
  obtain ⟨-, hout⟩ := computeWeeklyWinners_ok h
  have hperm : List.Perm (out.map (fun s => s.player))
      (playersOf (filteredRecords records league window)) := by
    rw [hout]
    have h1 := (List.perm_insertionSort standingLE
      ((playersOf (filteredRecords records league window)).map
        (rawStanding league window (filteredRecords records league window)
          (minEligibleTotal (filteredRecords records league window))))).map
      (fun s => s.player)
    rw [List.map_map] at h1
    have h2 : ((fun s : WeeklyStanding => s.player) ∘
        rawStanding league window (filteredRecords records league window)
          (minEligibleTotal (filteredRecords records league window))) = fun p => p := by
      funext p; rfl
    rw [h2] at h1
    simpa using h1
  refine ⟨?_, ?_, hperm⟩
  · rw [hout]
    exact List.sorted_insertionSort standingLE _
  · have hnd : (playersOf (filteredRecords records league window)).Nodup := by
      unfold playersOf
      exact List.nodup_dedup _
    exact hperm.nodup_iff.mpr hnd

/-- C4: with validation passing, when no player has at least 5 records in the
requested league/window (in particular on an empty record set),
`computeWeeklyWinners` succeeds and no returned standing is marked a
winner. -/
theorem c4_no_eligible_yields_no_winner (records : List ScoreRecord) (league : String)
    (window : WeeklyWindow) (hv : findInvalid records = none)
    (hne : ∀ p : String,
      (playerScores (filteredRecords records league window) p).length < 5) :
    ∃ out, computeWeeklyWinners records league window = Except.ok out ∧
      ∀ s ∈ out, s.isWinner = false := by
  have hok : computeWeeklyWinners records league window = Except.ok
      (List.insertionSort standingLE
        ((playersOf (filteredRecords records league window)).map
          (rawStanding league window (filteredRecords records league window)
            (minEligibleTotal (filteredRecords records league window))))) := by
    unfold computeWeeklyWinners
    rw [hv]
  refine ⟨_, hok, ?_⟩
  intro s hs
  obtain ⟨p, -, hps⟩ := mem_computeWeeklyWinners hok hs
  have hsw : s.isWinner = decide
      (5 ≤ (playerScores (filteredRecords records league window) p).length ∧
        minEligibleTotal (filteredRecords records league window) =
          some (bestFiveTotal (playerScores (filteredRecords records league window) p))) := by
    rw [hps]; rfl
  rw [hsw]
  apply decide_eq_false
  rintro ⟨h5, -⟩
  exact absurd h5 (not_le_of_lt (hne p))

/-- C5: when the input records contain a negative score or duplicate
`(player, date)` entries for the same league, `computeWeeklyWinners` fails
with a validation error carrying an offending record (one with a negative
score or one whose key occurs at least twice), and produces no standings. -/
theorem c5_malformed_input_fails (records : List ScoreRecord) (league : String)
    (window : WeeklyWindow)
    (h : (∃ r ∈ records, r.score < 0) ∨ ¬ (records.map recKey).Nodup) :
    ∃ bad, computeWeeklyWinners records league window = Except.error bad ∧
      bad ∈ records ∧
      (bad.score < 0 ∨
        2 ≤ (records.filter (fun s => decide (recKey s = recKey bad))).length) := by
  cases hI : findInvalid records with
  | none =>
      exfalso
      obtain ⟨hpos, hnd⟩ := findInvalid_none hI
      rcases h with ⟨r, hr, hrneg⟩ | hdup
      · exact absurd (hpos r hr) (not_le_of_lt hrneg)
      · exact hdup hnd
  | some bad =>
      refine ⟨bad, ?_, findInvalid_some hI⟩
      unfold computeWeeklyWinners
      rw [hI]

/-- C6: `computeWeeklyWinners` is deterministic: two invocations on equal
records, league and window produce equal results (and, being a pure function
of its arguments in this embedding, it mutates neither the records nor any
external state). -/
theorem c6_deterministic (records₁ records₂ : List ScoreRecord)
    (league₁ league₂ : String) (window₁ window₂ : WeeklyWindow)
    (hr : records₁ = records₂) (hl : league₁ = league₂) (hw : window₁ = window₂) :
    computeWeeklyWinners records₁ league₁ window₁ =
      computeWeeklyWinners records₂ league₂ window₂ := by
  rw [hr, hl, hw]

/-! ## Helper lemmas for the DOM scripts -/

theorem setButtonActiveAt_getElem? (bs : List TabButton) (i j : Nat) :
    (setButtonActiveAt bs i)[j]? =
      (bs[j]?).map (fun b => if j = i then { b with active := true } else b) := by
  induction bs generalizing i j with
  | nil => simp [setButtonActiveAt]
  | cons b bs ih =>
      cases i with
      | zero =>
          cases j with
          | zero => simp [setButtonActiveAt]
          | succ j =>
              simp only [setButtonActiveAt, List.getElem?_cons_succ]
              cases bs[j]? <;> simp
      | succ i =>
          cases j with
          | zero => simp [setButtonActiveAt]
          | succ j =>
              simp only [setButtonActiveAt, List.getElem?_cons_succ]
              rw [ih i j]
              cases bs[j]? <;> simp

theorem activateFirstId_spec {cs : List TabContent} {tabId : String} {out : List TabContent}
    (hinact : ∀ c ∈ cs, c.active = false) (h : activateFirstId cs tabId = some out) :
    (out.filter (fun c => c.active)).length = 1 ∧
      ∀ c ∈ out, c.active = true → c.id = tabId := by
  induction cs generalizing out with
  | nil => simp [activateFirstId] at h
  | cons c cs ih =>
      unfold activateFirstId at h
      by_cases hc : (c.id == tabId) = true
      · rw [if_pos hc] at h
        simp only [Option.some.injEq] at h
        subst h
        constructor
        · rw [List.filter_cons_of_pos rfl]
          have hnil : cs.filter (fun x => x.active) = [] :=
            List.filter_eq_nil_iff.mpr (fun x hx => by
              simp [hinact x (List.mem_cons_of_mem c hx)])
          simp [hnil]
        · intro x hx hxa
          rcases List.mem_cons.mp hx with rfl | hxs
          · exact eq_of_beq hc
          · rw [hinact x (List.mem_cons_of_mem c hxs)] at hxa
            exact absurd hxa (by simp)
      · rw [if_neg hc] at h
        cases hrec : activateFirstId cs tabId with
        | none => rw [hrec] at h; simp at h
        | some out' =>
            rw [hrec] at h
            simp only [Option.map_some', Option.some.injEq] at h
            subst h
            obtain ⟨h1, h2⟩ := ih (fun x hx => hinact x (List.mem_cons_of_mem c hx)) hrec
            constructor
            · rw [List.filter_cons_of_neg
                (by simp [hinact c (List.mem_cons_self c cs)])]
              exact h1
            · intro x hx hxa
              rcases List.mem_cons.mp hx with rfl | hxs
              · rw [hinact x (List.mem_cons_self x cs)] at hxa
                exact absurd hxa (by simp)
              · exact h2 x hxs hxa

theorem activateFirstId_none {cs : List TabContent} {tabId : String}
    (h : ∀ c ∈ cs, c.id ≠ tabId) : activateFirstId cs tabId = none := by
  induction cs with
  | nil => rfl
  | cons c cs ih =>
      unfold activateFirstId
      rw [if_neg (by simpa using h c (List.mem_cons_self c cs)),
        ih (fun x hx => h x (List.mem_cons_of_mem c hx))]
      rfl

theorem activateFirstBtn_spec {bs : List TabButton} {tabId : String} {out : List TabButton}
    (hinact : ∀ b ∈ bs, b.active = false) (h : activateFirstBtn bs tabId = some out) :
    (out.filter (fun b => b.active)).length = 1 ∧
      ∀ (j : Nat) (b' : TabButton), out[j]? = some b' → b'.active = true →
        ∃ b₀, bs[j]? = some b₀ ∧ b₀.dataTab = tabId ∧
          ∀ (k : Nat), k < j → ∀ (c : TabButton), bs[k]? = some c → c.dataTab ≠ tabId := by
  induction bs generalizing out with
  | nil => simp [activateFirstBtn] at h
  | cons b bs ih =>
      unfold activateFirstBtn at h
      by_cases hb : (b.dataTab == tabId) = true
      · rw [if_pos hb] at h
        simp only [Option.some.injEq] at h
        subst h
        refine ⟨?_, ?_⟩
        · rw [List.filter_cons_of_pos rfl]
          have hnil : bs.filter (fun x => x.active) = [] :=
            List.filter_eq_nil_iff.mpr (fun x hx => by
              simp [hinact x (List.mem_cons_of_mem b hx)])
          simp [hnil]
        · intro j b' hj hact
          cases j with
          | zero =>
              simp only [List.getElem?_cons_zero, Option.some.injEq] at hj
              exact ⟨b, List.getElem?_cons_zero, eq_of_beq hb,
                fun k hk => absurd hk (Nat.not_lt_zero k)⟩
          | succ j =>
              simp only [List.getElem?_cons_succ] at hj
              rw [hinact b' (List.mem_cons_of_mem b (List.getElem?_mem hj))] at hact
              exact absurd hact (by simp)
      · rw [if_neg hb] at h
        cases hrec : activateFirstBtn bs tabId with
        | none => rw [hrec] at h; simp at h
        | some out' =>
            rw [hrec] at h
            simp only [Option.map_some', Option.some.injEq] at h
            subst h
            obtain ⟨h1, h2⟩ := ih (fun x hx => hinact x (List.mem_cons_of_mem b hx)) hrec
            refine ⟨?_, ?_⟩
            · rw [List.filter_cons_of_neg
                (by simp [hinact b (List.mem_cons_self b bs)])]
              exact h1
            · intro j b' hj hact
              cases j with
              | zero =>
                  simp only [List.getElem?_cons_zero, Option.some.injEq] at hj
                  rw [← hj] at hact
                  rw [hinact b (List.mem_cons_self b bs)] at hact
                  exact absurd hact (by simp)
              | succ j =>
                  simp only [List.getElem?_cons_succ] at hj
                  obtain ⟨b₀, hb₀, hbd, hfirst⟩ := h2 j b' hj hact
                  refine ⟨b₀, by simpa using hb₀, hbd, ?_⟩
                  intro k hk c hkc
                  cases k with
                  | zero =>
                      simp only [List.getElem?_cons_zero, Option.some.injEq] at hkc
                      subst hkc
                      simpa using hb
                  | succ k =>
                      simp only [List.getElem?_cons_succ] at hkc
                      exact hfirst k (Nat.lt_of_succ_lt_succ hk) c hkc

theorem activateFirstBtn_none {bs : List TabButton} {tabId : String}
    (h : ∀ b ∈ bs, b.dataTab ≠ tabId) : activateFirstBtn bs tabId = none := by
  induction bs with
  | nil => rfl
  | cons b bs ih =>
      unfold activateFirstBtn
      rw [if_neg (by simpa using h b (List.mem_cons_self b bs)),
        ih (fun x hx => h x (List.mem_cons_of_mem b hx))]
      rfl

theorem activateFirstBtn_isSome {bs : List TabButton} {tabId : String} {b : TabButton}
    (hmem : b ∈ bs) (hd : b.dataTab = tabId) :
    ∃ out, activateFirstBtn bs tabId = some out := by
  induction bs with
  | nil => exact absurd hmem (List.not_mem_nil b)
  | cons x bs ih =>
      unfold activateFirstBtn
      by_cases hx : (x.dataTab == tabId) = true
      · exact ⟨_, by rw [if_pos hx]⟩
      · rcases List.mem_cons.mp hmem with rfl | hbs
        · exact absurd (beq_iff_eq.mpr hd) hx
        · obtain ⟨out', hout'⟩ := ih hbs
          exact ⟨x :: out', by rw [if_neg hx, hout']; rfl⟩

theorem activateFirstBtn_eq_setAt {bs : List TabButton} {tabId : String} {i : Nat}
    {b : TabButton} (hi : bs[i]? = some b) (hd : b.dataTab = tabId)
    (hfirst : ∀ k, k < i → ∀ c, bs[k]? = some c → c.dataTab ≠ tabId) :
    activateFirstBtn bs tabId = some (setButtonActiveAt bs i) := by
  induction bs generalizing i with
  | nil => simp at hi
  | cons x bs ih =>
      cases i with
      | zero =>
          simp only [List.getElem?_cons_zero, Option.some.injEq] at hi
          subst hi
          unfold activateFirstBtn setButtonActiveAt
          rw [if_pos (beq_iff_eq.mpr hd)]
      | succ i =>
          simp only [List.getElem?_cons_succ] at hi
          have hx : x.dataTab ≠ tabId :=
            hfirst 0 (Nat.succ_pos i) x List.getElem?_cons_zero
          unfold activateFirstBtn setButtonActiveAt
          rw [if_neg (by simpa using hx),
            ih hi (fun k hk c hkc =>
              hfirst (k + 1) (Nat.succ_lt_succ hk) c (by simpa using hkc))]
          rfl

/-! ## Claims C7-C10: the DOM scripts -/

/-- C7: the DOMContentLoaded styling pass blanks a `.failed-attempts` cell
(background `transparent`, color `#d7dadc`, weight `normal`) exactly when its
text is the string `0`; it changes no cell's text and leaves every other cell
entirely unchanged. -/
theorem c7_failed_cells_styling (cells : List Cell) (i : Nat) (c : Cell)
    (h : cells[i]? = some c) :
    (styleFailedCells cells).length = cells.length ∧
      ∃ c', (styleFailedCells cells)[i]? = some c' ∧
        c'.textContent = c.textContent ∧
        (c.textContent = "0" →
          c'.backgroundColor = "transparent" ∧ c'.color = "#d7dadc" ∧
            c'.fontWeight = "normal") ∧
        (c.textContent ≠ "0" → c' = c) := by
  refine ⟨by simp [styleFailedCells], styleFailedCell c, ?_, ?_, ?_, ?_⟩
  · unfold styleFailedCells
    rw [List.getElem?_map, h]
    rfl
  · unfold styleFailedCell
    by_cases h0 : c.textContent = "0" <;> simp [h0]
  · intro h0
    unfold styleFailedCell
    rw [if_pos h0]
    exact ⟨rfl, rfl, rfl⟩
  · intro h0
    unfold styleFailedCell
    rw [if_neg h0]

/-- C8 as stated is false: the `activateTab`-based handler of `script.js`
activates the first button whose `data-tab` matches, not the clicked one.
Clicking the second of two buttons that both carry `data-tab = "stats"`
leaves the clicked button (index 1) inactive. -/
theorem c8_counterexample :
    ¬ ((clickTab2 ⟨[⟨"stats", false⟩, ⟨"stats", false⟩], [⟨"stats", false⟩]⟩ 1).map
        (fun t => (t.buttons[1]?).map (fun b => b.active)) = some (some true)) := by
  decide

/-- C8 (amended): every handler removes `active` from all buttons and
contents first. The handlers of `tabs.js`, the first `script.js` block and
`openTab` then (on success) activate exactly the clicked button and one
content, whose id is the button's `data-tab`. The `activateTab`-based handler
of `script.js` activates exactly one button — the first whose `data-tab`
equals the clicked button's, which is the clicked button itself whenever
`data-tab` values are unique — and at most one content, whose id matches.
In every case at most one tab content is active afterwards. -/
theorem c8_tab_click_amended (s : TabState) (i : Nat) :
    (∀ s', clickTab s i = some s' →
      (∀ j : Nat, (s'.buttons[j]?).map (fun b => b.active) =
          (s.buttons[j]?).map (fun _ => decide (j = i))) ∧
      (s'.contents.filter (fun c => c.active)).length = 1 ∧
      (∀ b, s.buttons[i]? = some b →
        ∀ c ∈ s'.contents, c.active = true → c.id = b.dataTab)) ∧
    (∀ s', clickTab2 s i = some s' →
      (s'.buttons.filter (fun b => b.active)).length = 1 ∧
      (s'.contents.filter (fun c => c.active)).length ≤ 1 ∧
      (∀ b, s.buttons[i]? = some b →
        (∀ (j : Nat) (b' : TabButton), s'.buttons[j]? = some b' → b'.active = true →
          ∃ b₀, s.buttons[j]? = some b₀ ∧ b₀.dataTab = b.dataTab ∧
            ∀ (k : Nat), k < j → ∀ (c : TabButton), s.buttons[k]? = some c →
              c.dataTab ≠ b.dataTab) ∧
        (∀ c ∈ s'.contents, c.active = true → c.id = b.dataTab) ∧
        ((s.buttons.map (fun b => b.dataTab)).Nodup →
          ∀ j : Nat, (s'.buttons[j]?).map (fun b => b.active) =
            (s.buttons[j]?).map (fun _ => decide (j = i))))) := by
  have hinactB : ∀ x ∈ s.buttons.map (fun x => { x with active := false }),
      TabButton.active x = false := by
    intro x hx
    obtain ⟨x₀, -, rfl⟩ := List.mem_map.mp hx
    rfl
  have hinactC : ∀ x ∈ s.contents.map (fun c => { c with active := false }),
      TabContent.active x = false := by
    intro x hx
    obtain ⟨x₀, -, rfl⟩ := List.mem_map.mp hx
    rfl
  constructor
  · intro s' h
    cases hbi : s.buttons[i]? with
    | none =>
        simp only [clickTab, hbi] at h
        exact absurd h (by simp)
    | some b =>
        simp only [clickTab, hbi] at h
        cases hact : activateFirstId
            (s.contents.map (fun c => { c with active := false })) b.dataTab with
        | none => rw [hact] at h; exact absurd h (by simp)
        | some cs' =>
            rw [hact] at h
            simp only [Option.some.injEq] at h
            subst h
            obtain ⟨hlen1, hids⟩ := activateFirstId_spec hinactC hact
            refine ⟨?_, hlen1, ?_⟩
            · intro j
              show ((setButtonActiveAt
                (s.buttons.map (fun x => { x with active := false })) i)[j]?).map _ = _
              rw [setButtonActiveAt_getElem?, List.getElem?_map]
              cases s.buttons[j]? with
              | none => rfl
              | some x => by_cases hj : j = i <;> simp [hj]
            · intro b'' hb'' x hx hxa
              simp only [Option.some.injEq] at hb''
              subst hb''
              exact hids x hx hxa
  · intro s' h
    cases hbi : s.buttons[i]? with
    | none =>
        simp only [clickTab2, hbi, Option.map_none'] at h
        exact absurd h (by simp)
    | some b =>
        simp only [clickTab2, hbi, Option.map_some', Option.some.injEq] at h
        subst h
        have hmemb : ({ b with active := false } : TabButton) ∈
            s.buttons.map (fun x => { x with active := false }) :=
          List.mem_map.mpr ⟨b, List.getElem?_mem hbi, rfl⟩
        obtain ⟨outB, houtB⟩ := activateFirstBtn_isSome hmemb
          (show ({ b with active := false } : TabButton).dataTab = b.dataTab from rfl)
        have hbtn : (activateTabFn s b.dataTab).buttons = outB := by
          simp only [activateTabFn]
          rw [houtB]
        obtain ⟨hB1, hBidx⟩ := activateFirstBtn_spec hinactB houtB
        refine ⟨?_, ?_, ?_⟩
        · rw [hbtn]; exact hB1
        · cases hactc : activateFirstId
              (s.contents.map (fun c => { c with active := false })) b.dataTab with
          | none =>
              have hcont : (activateTabFn s b.dataTab).contents =
                  s.contents.map (fun c => { c with active := false }) := by
                simp only [activateTabFn]
                rw [hactc]
              rw [hcont]
              have : (s.contents.map (fun c => { c with active := false })).filter
                  (fun c => c.active) = [] :=
                List.filter_eq_nil_iff.mpr (fun x hx => by simp [hinactC x hx])
              simp [this]
          | some outC =>
              have hcont : (activateTabFn s b.dataTab).contents = outC := by
                simp only [activateTabFn]
                rw [hactc]
              rw [hcont]
              exact le_of_eq (activateFirstId_spec hinactC hactc).1
        · intro b'' hb''
          simp only [Option.some.injEq] at hb''
          subst hb''
          refine ⟨?_, ?_, ?_⟩
          · intro j b' hj hact
            rw [hbtn] at hj
            obtain ⟨b₀, hb₀, hbd, hfirst⟩ := hBidx j b' hj hact
            rw [List.getElem?_map] at hb₀
            cases hsj : s.buttons[j]? with
            | none => rw [hsj] at hb₀; exact absurd hb₀ (by simp)
            | some x₀ =>
                rw [hsj] at hb₀
                simp only [Option.map_some', Option.some.injEq] at hb₀
                refine ⟨x₀, rfl, ?_, ?_⟩
                · rw [← hbd, ← hb₀]
                · intro k hk c hkc
                  have := hfirst k hk { c with active := false }
                    (by rw [List.getElem?_map, hkc]; rfl)
                  simpa using this
          · intro x hx hxa
            cases hactc : activateFirstId
                (s.contents.map (fun c => { c with active := false })) b.dataTab with
            | none =>
                have hcont : (activateTabFn s b.dataTab).contents =
                    s.contents.map (fun c => { c with active := false }) := by
                  simp only [activateTabFn]
                  rw [hactc]
                rw [hcont] at hx
                rw [hinactC x hx] at hxa
                exact absurd hxa (by simp)
            | some outC =>
                have hcont : (activateTabFn s b.dataTab).contents = outC := by
                  simp only [activateTabFn]
                  rw [hactc]
                rw [hcont] at hx
                exact (activateFirstId_spec hinactC hactc).2 x hx hxa
          · intro hnd j
            have hfirsti : ∀ k, k < i →
                ∀ c, (s.buttons.map (fun x => { x with active := false }))[k]? = some c →
                  TabButton.dataTab c ≠ b.dataTab := by
              intro k hk c hkc
              rw [List.getElem?_map] at hkc
              cases hsk : s.buttons[k]? with
              | none => rw [hsk] at hkc; exact absurd hkc (by simp)
              | some c₀ =>
                  rw [hsk] at hkc
                  simp only [Option.map_some', Option.some.injEq] at hkc
                  subst hkc
                  intro hcontra
                  have hgi : (s.buttons.map (fun x => TabButton.dataTab x))[i]? =
                      some b.dataTab := by
                    rw [List.getElem?_map, hbi]; rfl
                  have hgk : (s.buttons.map (fun x => TabButton.dataTab x))[k]? =
                      some b.dataTab := by
                    rw [List.getElem?_map, hsk]
                    simpa using hcontra
                  have hklt : k < (s.buttons.map (fun x => TabButton.dataTab x)).length := by
                    rw [List.length_map]
                    exact (List.getElem?_eq_some_iff.mp hsk).1
                  have := List.getElem?_inj hklt hnd (hgk.trans hgi.symm)
                  omega
            have hset : activateFirstBtn
                (s.buttons.map (fun x => { x with active := false })) b.dataTab =
                some (setButtonActiveAt
                  (s.buttons.map (fun x => { x with active := false })) i) :=
              activateFirstBtn_eq_setAt
                (by rw [List.getElem?_map, hbi]; rfl)
                (show ({ b with active := false } : TabButton).dataTab = b.dataTab from rfl)
                hfirsti
            rw [houtB] at hset
            simp only [Option.some.injEq] at hset
            rw [hbtn, hset, setButtonActiveAt_getElem?, List.getElem?_map]
            cases s.buttons[j]? with
            | none => rfl
            | some x => by_cases hj : j = i <;> simp [hj]

/-- C9: `activateTab` in `script.js` null-checks both lookups, so it is a
total function for every `tabId`; when no button's `data-tab` and no
content's id equals `tabId`, it leaves every button and every content
without the `active` class. -/
theorem c9_activateTab_null_safe (s : TabState) (tabId : String)
    (hb : ∀ b ∈ s.buttons, b.dataTab ≠ tabId)
    (hc : ∀ c ∈ s.contents, c.id ≠ tabId) :
    (∀ b ∈ (activateTabFn s tabId).buttons, b.active = false) ∧
      (∀ c ∈ (activateTabFn s tabId).contents, c.active = false) := by
  have hbn : activateFirstBtn
      (s.buttons.map (fun x => { x with active := false })) tabId = none :=
    activateFirstBtn_none (fun x hx => by
      obtain ⟨x₀, hx₀, rfl⟩ := List.mem_map.mp hx
      exact hb x₀ hx₀)
  have hcn : activateFirstId
      (s.contents.map (fun c => { c with active := false })) tabId = none :=
    activateFirstId_none (fun x hx => by
      obtain ⟨x₀, hx₀, rfl⟩ := List.mem_map.mp hx
      exact hc x₀ hx₀)
  constructor
  · intro x hx
    have hbtn : (activateTabFn s tabId).buttons =
        s.buttons.map (fun x => { x with active := false }) := by
      simp only [activateTabFn]
      rw [hbn]
    rw [hbtn] at hx
    obtain ⟨x₀, -, rfl⟩ := List.mem_map.mp hx
    rfl
  · intro x hx
    have hcont : (activateTabFn s tabId).contents =
        s.contents.map (fun c => { c with active := false }) := by
      simp only [activateTabFn]
      rw [hcn]
    rw [hcont] at hx
    obtain ⟨x₀, -, rfl⟩ := List.mem_map.mp hx
    rfl

/-- C10: on DOMContentLoaded the stats tab is activated exactly when the
stored value under `activateStatsTab` is the string `true`; the key is then
removed, so a second run of the handler changes nothing (the flag fires at
most once and is absent afterwards); any other stored value leaves the page
and the storage untouched. -/
theorem c10_stats_tab_flag (s : TabState) (stored : Option String) :
    (stored = some "true" →
      statsTabOnLoad s stored = (activateTabFn s "stats", none) ∧
      statsTabOnLoad (activateTabFn s "stats") none =
        (activateTabFn s "stats", none)) ∧
    (stored ≠ some "true" → statsTabOnLoad s stored = (s, stored)) := by
  constructor
  · intro h
    constructor
    · unfold statsTabOnLoad
      rw [if_pos h]
    · unfold statsTabOnLoad
      rw [if_neg (by simp)]
  · intro h
    unfold statsTabOnLoad
    rw [if_neg h]

/-- Witness for C1 on a league of one player with five scores of 1. -/
theorem c1_witness :
    (⟨"a", "L", ⟨0, 6⟩, 5, 5, true⟩ : WeeklyStanding).total =
        (([1, 1, 1, 1, 1] : List Int).take 5).sum ∧
      (([1, 1, 1, 1, 1] : List Int).take 5).length = 5 :=
  @c1_total_sums_five_smallest
    [⟨"a", "L", 0, 1⟩, ⟨"a", "L", 1, 1⟩, ⟨"a", "L", 2, 1⟩, ⟨"a", "L", 3, 1⟩, ⟨"a", "L", 4, 1⟩]
    "L" ⟨0, 6⟩ [⟨"a", "L", ⟨0, 6⟩, 5, 5, true⟩] ⟨"a", "L", ⟨0, 6⟩, 5, 5, true⟩
    rfl (by decide) (by decide) [1, 1, 1, 1, 1] (List.Perm.refl _) (by decide)

/-- Witness for C2 on the same one-player league. -/
theorem c2_witness :
    (⟨"a", "L", ⟨0, 6⟩, 5, 5, true⟩ : WeeklyStanding).isWinner = true ↔
      (5 ≤ (⟨"a", "L", ⟨0, 6⟩, 5, 5, true⟩ : WeeklyStanding).gameCount ∧
        ∀ t ∈ [(⟨"a", "L", ⟨0, 6⟩, 5, 5, true⟩ : WeeklyStanding)], 5 ≤ t.gameCount →
          (⟨"a", "L", ⟨0, 6⟩, 5, 5, true⟩ : WeeklyStanding).total ≤ t.total) :=
  @c2_isWinner_iff_minimal_eligible
    [⟨"a", "L", 0, 1⟩, ⟨"a", "L", 1, 1⟩, ⟨"a", "L", 2, 1⟩, ⟨"a", "L", 3, 1⟩, ⟨"a", "L", 4, 1⟩]
    "L" ⟨0, 6⟩ [⟨"a", "L", ⟨0, 6⟩, 5, 5, true⟩] ⟨"a", "L", ⟨0, 6⟩, 5, 5, true⟩
    rfl (by decide)

/-- Witness for C3 on the same one-player league. -/
theorem c3_witness :
    List.Sorted standingLE [(⟨"a", "L", ⟨0, 6⟩, 5, 5, true⟩ : WeeklyStanding)] ∧
      (([(⟨"a", "L", ⟨0, 6⟩, 5, 5, true⟩ : WeeklyStanding)]).map (fun s => s.player)).Nodup ∧
      List.Perm (([(⟨"a", "L", ⟨0, 6⟩, 5, 5, true⟩ : WeeklyStanding)]).map (fun s => s.player))
        (playersOf (filteredRecords
          [⟨"a", "L", 0, 1⟩, ⟨"a", "L", 1, 1⟩, ⟨"a", "L", 2, 1⟩, ⟨"a", "L", 3, 1⟩,
            ⟨"a", "L", 4, 1⟩] "L" ⟨0, 6⟩)) :=
  @c3_sorted_one_standing_per_player
    [⟨"a", "L", 0, 1⟩, ⟨"a", "L", 1, 1⟩, ⟨"a", "L", 2, 1⟩, ⟨"a", "L", 3, 1⟩, ⟨"a", "L", 4, 1⟩]
    "L" ⟨0, 6⟩ [⟨"a", "L", ⟨0, 6⟩, 5, 5, true⟩] rfl

/-- Witness for C4 on an empty record set. -/
theorem c4_witness :
    ∃ out, computeWeeklyWinners [] "L" ⟨0, 6⟩ = Except.ok out ∧
      ∀ s ∈ out, s.isWinner = false :=
  c4_no_eligible_yields_no_winner [] "L" ⟨0, 6⟩ rfl (fun _ => Nat.succ_pos 4)

/-- Witness for C5 on a single record with a negative score. -/
theorem c5_witness :
    ∃ bad, computeWeeklyWinners [⟨"a", "L", 0, -1⟩] "L" ⟨0, 6⟩ = Except.error bad ∧
      bad ∈ ([⟨"a", "L", 0, -1⟩] : List ScoreRecord) ∧
      (bad.score < 0 ∨
        2 ≤ (([⟨"a", "L", 0, -1⟩] : List ScoreRecord).filter
          (fun s => decide (recKey s = recKey bad))).length) :=
  c5_malformed_input_fails [⟨"a", "L", 0, -1⟩] "L" ⟨0, 6⟩
    (Or.inl ⟨⟨"a", "L", 0, -1⟩, by decide, by decide⟩)

/-- Witness for C7 on a single cell holding the text `0`. -/
theorem c7_witness :
    (styleFailedCells [⟨"0", "red", "white", "bold"⟩]).length =
        ([⟨"0", "red", "white", "bold"⟩] : List Cell).length ∧
      ∃ c', (styleFailedCells [⟨"0", "red", "white", "bold"⟩])[0]? = some c' ∧
        c'.textContent = (⟨"0", "red", "white", "bold"⟩ : Cell).textContent ∧
        ((⟨"0", "red", "white", "bold"⟩ : Cell).textContent = "0" →
          c'.backgroundColor = "transparent" ∧ c'.color = "#d7dadc" ∧
            c'.fontWeight = "normal") ∧
        ((⟨"0", "red", "white", "bold"⟩ : Cell).textContent ≠ "0" →
          c' = ⟨"0", "red", "white", "bold"⟩) :=
  c7_failed_cells_styling [⟨"0", "red", "white", "bold"⟩] 0 ⟨"0", "red", "white", "bold"⟩ rfl

/-- Witness for C8 on a page with one button and one matching content. -/
theorem c8_witness :
    (∀ j : Nat,
        ((⟨[⟨"t1", true⟩], [⟨"t1", true⟩]⟩ : TabState).buttons[j]?).map (fun b => b.active) =
          ((⟨[⟨"t1", false⟩], [⟨"t1", false⟩]⟩ : TabState).buttons[j]?).map
            (fun _ => decide (j = 0))) ∧
      ((⟨[⟨"t1", true⟩], [⟨"t1", true⟩]⟩ : TabState).contents.filter
        (fun c => c.active)).length = 1 ∧
      (∀ b, (⟨[⟨"t1", false⟩], [⟨"t1", false⟩]⟩ : TabState).buttons[0]? = some b →
        ∀ c ∈ (⟨[⟨"t1", true⟩], [⟨"t1", true⟩]⟩ : TabState).contents,
          c.active = true → c.id = b.dataTab) :=
  (c8_tab_click_amended ⟨[⟨"t1", false⟩], [⟨"t1", false⟩]⟩ 0).1
    ⟨[⟨"t1", true⟩], [⟨"t1", true⟩]⟩ rfl

/-- Witness for C9 on a page whose button and content both miss the tab id. -/
theorem c9_witness :
    (∀ b ∈ (activateTabFn ⟨[⟨"a", true⟩], [⟨"b", true⟩]⟩ "z").buttons, b.active = false) ∧
      (∀ c ∈ (activateTabFn ⟨[⟨"a", true⟩], [⟨"b", true⟩]⟩ "z").contents,
        c.active = false) :=
  c9_activateTab_null_safe ⟨[⟨"a", true⟩], [⟨"b", true⟩]⟩ "z" (by decide) (by decide)

/-- Witness for C10 with the flag set to the string `true`. -/
theorem c10_witness :
    (some "true" = some "true" →
      statsTabOnLoad ⟨[], []⟩ (some "true") = (activateTabFn ⟨[], []⟩ "stats", none) ∧
      statsTabOnLoad (activateTabFn ⟨[], []⟩ "stats") none =
        (activateTabFn ⟨[], []⟩ "stats", none)) ∧
    (some "true" ≠ some "true" → statsTabOnLoad ⟨[], []⟩ (some "true") = (⟨[], []⟩, some "true")) :=
  c10_stats_tab_flag ⟨[], []⟩ (some "true")

/-- Witness for C6 on the one-player league. -/
theorem c6_witness :
    computeWeeklyWinners
        [⟨"a", "L", 0, 1⟩, ⟨"a", "L", 1, 1⟩, ⟨"a", "L", 2, 1⟩, ⟨"a", "L", 3, 1⟩,
          ⟨"a", "L", 4, 1⟩] "L" ⟨0, 6⟩ =
      computeWeeklyWinners
        [⟨"a", "L", 0, 1⟩, ⟨"a", "L", 1, 1⟩, ⟨"a", "L", 2, 1⟩, ⟨"a", "L", 3, 1⟩,
          ⟨"a", "L", 4, 1⟩] "L" ⟨0, 6⟩ :=
  c6_deterministic _ _ _ _ _ _ rfl rfl rfl
